import Mathlib

/-!
Verification development for the test-generator source analysis core.

The definitions below are a shallow embedding of the repository's data
model and operations:

* `TypeInfo` and `generateMockValueForType` embed `src/types.ts` and
  `src/generator.ts` (the mock value synthesizer);
* the flow-analyzer AST and `analyzeNode` embed `analyzeBusinessFlow`
  from the flow analyzer module;
* `ResolverState`, `resolveType` and `dispose` embed
  `src/type-resolver.ts`;
* the declaration-extractor definitions embed `extractParams`,
  `extractTypeInfo`, `extractFunctionInfo` and `findProjectRoot` from the
  parser module.

JavaScript-specific behaviour (truthiness, `||` defaulting, a `TypeError`
raised when `undefined` flows into a method call) is modelled explicitly.
-/

namespace TestGen

/-- A single quote character, used when re-quoting string literals the way
the generator does with template strings. -/
def sq : String := (Char.ofNat 39).toString

/-- JavaScript truthiness of an optional boolean field (absent = falsy). -/
def truthy : Option Bool → Bool
  | some b => b
  | none => false

/-- `s.includes(sub)` on JavaScript strings: `sub` occurs contiguously in
`s`. -/
def strIncludes (s sub : String) : Bool :=
  go s.toList
where
  go : List Char → Bool
    | [] => sub.toList.isEmpty
    | l@(_ :: rest) => sub.toList.isPrefixOf l || go rest

/-- A concrete scalar carried by a literal type
(`literalValue?: string | number | boolean`). -/
inductive LitValue where
  | str (s : String)
  | num (n : Int)
  | bool (b : Bool)
deriving Repr, DecidableEq

/-- `typeof literalValue` in JavaScript. -/
def LitValue.jsTypeof : LitValue → String
  | .str _ => "string"
  | .num _ => "number"
  | .bool _ => "boolean"

/-- `String(literalValue)` in JavaScript. -/
def LitValue.jsString : LitValue → String
  | .str s => s
  | .num n => toString n
  | .bool b => if b then "true" else "false"

/-- The `TypeInfo` interface from `src/types.ts`.  Optional interface
fields are `Option`s (absent = `none`). -/
structure TypeInfo where
  raw : String
  isUnion : Bool
  isGeneric : Bool
  isIntersection : Bool
  baseType : String
  genericTypes : Option (List String)
  unionTypes : Option (List String)
  intersectionTypes : Option (List String)
  isLiteral : Option Bool
  literalValue : Option LitValue
  isTuple : Option Bool
  tupleTypes : Option (List TypeInfo)
  isNever : Option Bool
  isNull : Option Bool
  isUndefined : Option Bool
  resolvedType : Option String
deriving Repr

/-- An object literal `{ raw, isUnion, isGeneric, isIntersection, baseType }`
with every optional field absent — the record shape the code builds inline
in several places. -/
def TypeInfo.flat (raw baseType : String) (isUnion isGeneric isIntersection : Bool) : TypeInfo :=
  ⟨raw, isUnion, isGeneric, isIntersection, baseType,
   none, none, none, none, none, none, none, none, none, none, none⟩

/-- Structural measure for `generateMockValueForType`'s recursion: one per
shape, plus one for each present member list, plus the sizes of tuple
elements.  The union/intersection recursion drops the corresponding member
list, the tuple recursion descends into elements, and the generic
recursion rebuilds a flat five-field record of measure 1. -/
def tsize : TypeInfo → Nat
  | ⟨_, _, _, _, _, g, u, i, _, _, _, tt, _, _, _, _⟩ =>
    1 + (if u.isSome then 1 else 0) + (if i.isSome then 1 else 0)
      + (if g.isSome then 1 else 0)
      + (match tt with
         | none => 0
         | some l => tlist l)
where
  tlist : List TypeInfo → Nat
    | [] => 0
    | x :: xs => tsize x + tlist xs

/-- 1 if an optional field is present, else 0. -/
def optFlag (o : Option α) : Nat := if o.isSome then 1 else 0

/-- The tuple-part summand of `tsize`. -/
def tupPart : Option (List TypeInfo) → Nat
  | none => 0
  | some l => tsize.tlist l

/-- Runtime error of the JavaScript engine.  `generateMockValueForType`
can raise one: when `genericTypes` is an empty array, `genericTypes[0]`
is `undefined`, and the recursive call then evaluates
`undefined.toLowerCase()`, a `TypeError`. -/
inductive JsError where
  | typeError
deriving Repr, DecidableEq

/-- The `typeMap` object literal of `generateMockValueForType`, in
insertion order (JavaScript object iteration order for string keys). -/
def typeMap : List (String × String) :=
  [("string", sq ++ "test-string" ++ sq),
   ("number", "42"),
   ("boolean", "true"),
   ("array", "[]"),
   ("object", "\x7b\x7d"),
   ("date", "new Date()"),
   ("any", "null"),
   ("unknown", "null"),
   ("void", "undefined"),
   ("never", "undefined"),
   ("null", "null"),
   ("undefined", "undefined"),
   ("map", "new Map()"),
   ("set", "new Set()"),
   ("regexp", "/test/"),
   ("error", "new Error(\"test\")"),
   ("function", "() => \x7b\x7d"),
   ("symbol", "Symbol(\"test\")"),
   ("bigint", "42n")]

/-- `generateMockValueForType` from `src/generator.ts`, case for case:
never/null/undefined flags, literal, union (first member), intersection
(first member), tuple (element-wise), generic (promise / array-like /
map / set / first type argument), then the `typeMap` lookup (exact match,
then substring match), then the `resolvedType` and default fallbacks
(both `{}`). -/
def generateMockValueForType (t : TypeInfo) : Except JsError String :=
  if truthy t.isNever then .ok "undefined"
  else if truthy t.isNull then .ok "null"
  else if truthy t.isUndefined then .ok "undefined"
  else if truthy t.isLiteral && t.literalValue.isSome then
    match t.literalValue with
    | some (.str s) => .ok (sq ++ s ++ sq)
    | some v => .ok v.jsString
    | none => .ok "undefined"
  else if hu : t.isUnion && 0 < (t.unionTypes.getD []).length then
    generateMockValueForType
      { t with isUnion := false, baseType := (t.unionTypes.getD []).headD "",
               unionTypes := none }
  else if hi : t.isIntersection && 0 < (t.intersectionTypes.getD []).length then
    generateMockValueForType
      { t with isIntersection := false, baseType := (t.intersectionTypes.getD []).headD "",
               intersectionTypes := none }
  else if truthy t.isTuple && t.tupleTypes.isSome then
    match htt : t.tupleTypes with
    | some l =>
        (l.attach.mapM (fun x => generateMockValueForType x.1)).map
          (fun vs => "[" ++ String.intercalate ", " vs ++ "]")
    | none => .ok "[]"
  else if hg : t.isGeneric && t.genericTypes.isSome then
    let gl := t.genericTypes.getD []
    let base := t.baseType.toLower
    if base = "promise" then
      match gl with
      | g :: _ => (generateMockValueForType (TypeInfo.flat g g false false false)).map
          (fun v => "Promise.resolve(" ++ v ++ ")")
      | [] => .error .typeError
    else if base = "array" || strIncludes base "array" then
      match gl with
      | g :: _ => (generateMockValueForType (TypeInfo.flat g g false false false)).map
          (fun v => "[" ++ v ++ "]")
      | [] => .ok "[]"
    else if base = "map" then .ok "new Map()"
    else if base = "set" then .ok "new Set()"
    else
      match gl with
      | g :: _ => generateMockValueForType (TypeInfo.flat g g false false false)
      | [] => .error .typeError
  else
    let base := t.baseType.toLower
    match typeMap.lookup base with
    | some v => .ok v
    | none =>
      match typeMap.find? (fun kv => strIncludes base kv.1) with
      | some kv => .ok kv.2
      | none => if t.resolvedType.isSome then .ok "\x7b\x7d" else .ok "\x7b\x7d"
termination_by tsize t
decreasing_by
  · have teq : ∀ (x : TypeInfo), tsize x = 1 + optFlag x.unionTypes
        + optFlag x.intersectionTypes + optFlag x.genericTypes + tupPart x.tupleTypes := by
      intro x
      obtain ⟨r, iu, ig, ii, bt, g0, u0, i0, lt2, lv, itp, tt, nv, nl, ud, rt⟩ := x
      cases tt <;> rfl
    have h : t.unionTypes.isSome := by
      simp at hu
      cases hmo : t.unionTypes with
      | none =>
        rw [hmo] at hu
        simp at hu
      | some l => rfl
    rw [teq, teq]
    simp only [optFlag]
    simp [h]
  · have teq : ∀ (x : TypeInfo), tsize x = 1 + optFlag x.unionTypes
        + optFlag x.intersectionTypes + optFlag x.genericTypes + tupPart x.tupleTypes := by
      intro x
      obtain ⟨r, iu, ig, ii, bt, g0, u0, i0, lt2, lv, itp, tt, nv, nl, ud, rt⟩ := x
      cases tt <;> rfl
    have h : t.intersectionTypes.isSome := by
      simp at hi
      cases hmo : t.intersectionTypes with
      | none =>
        rw [hmo] at hi
        simp at hi
      | some l => rfl
    rw [teq, teq]
    simp only [optFlag]
    simp [h]
  · have teq : ∀ (x : TypeInfo), tsize x = 1 + optFlag x.unionTypes
        + optFlag x.intersectionTypes + optFlag x.genericTypes + tupPart x.tupleTypes := by
      intro x
      obtain ⟨r, iu, ig, ii, bt, g0, u0, i0, lt2, lv, itp, tt, nv, nl, ud, rt⟩ := x
      cases tt <;> rfl
    have hle : ∀ (m : List TypeInfo), ∀ y ∈ m, tsize y ≤ tsize.tlist m := by
      intro m
      induction m with
      | nil =>
        intro y hy
        simp at hy
      | cons a as ih =>
        intro y hy
        cases List.mem_cons.mp hy with
        | inl he =>
          subst he
          simp [tsize.tlist]
        | inr hm =>
          have := ih y hm
          simp [tsize.tlist]
          omega
    have h1 := hle l x.1 x.2
    have h2 := teq t
    rw [htt] at h2
    simp only [tupPart] at h2
    omega
  · have teq : ∀ (x : TypeInfo), tsize x = 1 + optFlag x.unionTypes
        + optFlag x.intersectionTypes + optFlag x.genericTypes + tupPart x.tupleTypes := by
      intro x
      obtain ⟨r, iu, ig, ii, bt, g0, u0, i0, lt2, lv, itp, tt, nv, nl, ud, rt⟩ := x
      cases tt <;> rfl
    have h : t.genericTypes.isSome := by
      simp at hg
      exact hg.2
    have h2 := teq t
    have hflat : tsize (TypeInfo.flat g g false false false) = 1 := rfl
    simp only [optFlag] at h2
    simp [h] at h2
    omega
  · have teq : ∀ (x : TypeInfo), tsize x = 1 + optFlag x.unionTypes
        + optFlag x.intersectionTypes + optFlag x.genericTypes + tupPart x.tupleTypes := by
      intro x
      obtain ⟨r, iu, ig, ii, bt, g0, u0, i0, lt2, lv, itp, tt, nv, nl, ud, rt⟩ := x
      cases tt <;> rfl
    have h : t.genericTypes.isSome := by
      simp at hg
      exact hg.2
    have h2 := teq t
    have hflat : tsize (TypeInfo.flat g g false false false) = 1 := rfl
    simp only [optFlag] at h2
    simp [h] at h2
    omega
  · have teq : ∀ (x : TypeInfo), tsize x = 1 + optFlag x.unionTypes
        + optFlag x.intersectionTypes + optFlag x.genericTypes + tupPart x.tupleTypes := by
      intro x
      obtain ⟨r, iu, ig, ii, bt, g0, u0, i0, lt2, lv, itp, tt, nv, nl, ud, rt⟩ := x
      cases tt <;> rfl
    have h : t.genericTypes.isSome := by
      simp at hg
      exact hg.2
    have h2 := teq t
    have hflat : tsize (TypeInfo.flat g g false false false) = 1 := rfl
    simp only [optFlag] at h2
    simp [h] at h2
    omega

/-! ## Flow analyzer (`analyzeBusinessFlow`) -/

/-- `ConditionInfo` of the flow analyzer. -/
structure ConditionInfo where
  kind : String
  condition : String
  consequence : String
  alternative : Option String
  line : Nat
deriving Repr, DecidableEq

/-- `LoopInfo`.  The `type` field is a string because the code pushes the
matched method name with an `as any` cast, so values outside the declared
union (`find`, `some`, `every`) occur at runtime. -/
structure LoopInfo where
  kind : String
  varText : Option String
  line : Nat
deriving Repr, DecidableEq

/-- `ErrorInfo`. -/
structure ErrorInfo where
  kind : String
  errorType : Option String
  errorMessage : Option String
  line : Nat
deriving Repr, DecidableEq

/-- `CallInfo`. -/
structure CallInfo where
  functionName : String
  isAsync : Bool
  line : Nat
deriving Repr, DecidableEq

/-- `ReturnInfo`. -/
structure ReturnInfo where
  type : String
  condition : Option String
  line : Nat
deriving Repr, DecidableEq

/-- `FlowAnalysis`. -/
structure FlowAnalysis where
  conditions : List ConditionInfo
  loops : List LoopInfo
  errorHandling : List ErrorInfo
  externalCalls : List CallInfo
  returnStatements : List ReturnInfo
  complexity : Nat
deriving Repr, DecidableEq

/-- The initial analysis record (complexity seeded at 1). -/
def FlowAnalysis.init : FlowAnalysis := ⟨[], [], [], [], [], 1⟩

/-- Which of the three `for` statement kinds a loop node is. -/
inductive ForVariant where
  | classic
  | forOf
  | forIn
deriving Repr, DecidableEq

/-- Shallow syntax tree for the nodes `analyzeBusinessFlow` classifies,
plus the neutral node kinds needed to build realistic bodies.  `line` is
the 1-based source line the code computes from the node's position.
`caseClause` with `test = none` is a `default` clause; both kinds sit in
a `switchStmt`'s clause list (`ts.CaseBlock.clauses`). -/
inductive Node where
  | ident (name : String) (line : Nat)
  | strLit (value : String) (line : Nat)
  | numLit (text : String) (line : Nat)
  | propAccess (obj : Node) (name : String) (line : Nat)
  | callExpr (callee : Node) (args : List Node) (line : Nat)
  | newExpr (callee : Node) (args : List Node) (line : Nat)
  | awaitExpr (operand : Node) (line : Nat)
  | ternary (cond whenTrue whenFalse : Node) (line : Nat)
  | exprStmt (e : Node) (line : Nat)
  | block (stmts : List Node) (line : Nat)
  | ifStmt (cond thenS : Node) (elseS : Option Node) (line : Nat)
  | switchStmt (disc : Node) (clauses : List Node) (line : Nat)
  | caseClause (test : Option Node) (stmts : List Node) (line : Nat)
  | forStmt (variant : ForVariant) (initializer : Option Node) (rest : List Node) (line : Nat)
  | whileStmt (cond body : Node) (line : Nat)
  | throwStmt (e : Node) (line : Nat)
  | tryStmt (tryBlock : Node) (catchC finallyB : Option Node) (line : Nat)
  | catchClause (varName : Option String) (varType : Option String) (body : Node) (line : Nat)
  | returnStmt (e : Option Node) (line : Nat)
deriving Repr

/-- `node.getText()`: the source text of a node, reconstructed from the
tree. -/
def render : Node → String
  | .ident n _ => n
  | .strLit v _ => sq ++ v ++ sq
  | .numLit t _ => t
  | .propAccess o n _ => render o ++ "." ++ n
  | .callExpr c args _ =>
      render c ++ "(" ++ String.intercalate ", " (renderList args) ++ ")"
  | .newExpr c args _ =>
      "new " ++ render c ++ "(" ++ String.intercalate ", " (renderList args) ++ ")"
  | .awaitExpr e _ => "await " ++ render e
  | .ternary c t f _ => render c ++ " ? " ++ render t ++ " : " ++ render f
  | .exprStmt e _ => render e ++ ";"
  | .block ss _ => "\x7b " ++ String.intercalate " " (renderList ss) ++ " \x7d"
  | .ifStmt c t e _ =>
      "if (" ++ render c ++ ") " ++ render t
        ++ (match e with
            | some x => " else " ++ render x
            | none => "")
  | .switchStmt d cls _ =>
      "switch (" ++ render d ++ ") \x7b " ++ String.intercalate " " (renderList cls) ++ " \x7d"
  | .caseClause t ss _ =>
      (match t with
       | some x => "case " ++ render x ++ ":"
       | none => "default:") ++ " " ++ String.intercalate " " (renderList ss)
  | .forStmt _ init rest _ =>
      "for (" ++ (match init with
                  | some i => render i
                  | none => "") ++ ") \x7b "
        ++ String.intercalate " " (renderList rest) ++ " \x7d"
  | .whileStmt c b _ => "while (" ++ render c ++ ") " ++ render b
  | .throwStmt e _ => "throw " ++ render e ++ ";"
  | .tryStmt tb c f _ =>
      "try " ++ render tb
        ++ (match c with
            | some x => " " ++ render x
            | none => "")
        ++ (match f with
            | some x => " finally " ++ render x
            | none => "")
  | .catchClause vn vt b _ =>
      "catch (" ++ vn.getD "" ++ (match vt with
                                  | some tp => ": " ++ tp
                                  | none => "") ++ ") " ++ render b
  | .returnStmt e _ =>
      "return" ++ (match e with
                   | some x => " " ++ render x
                   | none => "") ++ ";"
where
  renderList : List Node → List String
    | [] => []
    | x :: xs => render x :: renderList xs

/-- JavaScript `a || b` on strings: the empty string is falsy. -/
def jsOr (a b : String) : String := if a = "" then b else a

/-- The iteration-method name set of the loop branch. -/
def iterMethods : List String :=
  ["forEach", "map", "filter", "reduce", "find", "some", "every"]

/-- The `builtins` array of the external-call branch. -/
def builtins : List String := ["console", "Math", "Date", "JSON", "Object", "Array"]

/-- `s.startsWith(pre)` on JavaScript strings. -/
def strStarts (s pre : String) : Bool :=
  pre.toList.isPrefixOf s.toList

/-- The external-call filter: a call is skipped when its callee text
starts with a builtin name or contains `.length` or `.toString`. -/
def isSkippedCall (functionName : String) : Bool :=
  builtins.any (fun b => strStarts functionName b)
    || strIncludes functionName ".length" || strIncludes functionName ".toString"

/-- `text.replace(/['"]/g, '')`. -/
def stripQuotes (s : String) : String :=
  String.mk (s.toList.filter (fun c => c ≠ Char.ofNat 39 ∧ c ≠ Char.ofNat 34))

/-- Traversal context replacing the parent links the code consults:
whether the immediate parent is an `await` expression, and the condition
text of the nearest lexically enclosing `if` (the upward walk of the
return branch). -/
structure Ctx where
  parentIsAwait : Bool
  nearestIf : Option String
deriving Repr

/-- `analyzeNode` of `analyzeBusinessFlow`: classify the node (each branch
appends its record and adds its complexity weight), then visit each child
(`ts.forEachChild`) in order. -/
def analyzeNode (ctx : Ctx) (st : FlowAnalysis) : Node → FlowAnalysis
  | .ident _ _ => st
  | .strLit _ _ => st
  | .numLit _ _ => st
  | .propAccess o _ _ => analyzeNode ⟨false, ctx.nearestIf⟩ st o
  | .callExpr callee args ln =>
      -- iteration-method loop branch
      let st1 :=
        match callee with
        | .propAccess recvE m _ =>
            if m ∈ iterMethods then
              { st with loops := st.loops ++ [⟨m, some (render recvE), ln⟩],
                        complexity := st.complexity + 1 }
            else st
        | _ => st
      -- external-call branch
      let functionName := render callee
      let st2 :=
        if isSkippedCall functionName then st1
        else { st1 with
               externalCalls := st1.externalCalls ++ [⟨functionName, ctx.parentIsAwait, ln⟩] }
      let st3 := analyzeNode ⟨false, ctx.nearestIf⟩ st2 callee
      analyzeList ⟨false, ctx.nearestIf⟩ st3 args
  | .newExpr c args _ =>
      analyzeList ⟨false, ctx.nearestIf⟩ (analyzeNode ⟨false, ctx.nearestIf⟩ st c) args
  | .awaitExpr e _ => analyzeNode ⟨true, ctx.nearestIf⟩ st e
  | .ternary c wt wf ln =>
      let st1 := { st with
        conditions := st.conditions ++ [⟨"ternary", render c, render wt, some (render wf), ln⟩],
        complexity := st.complexity + 1 }
      let st2 := analyzeNode ⟨false, ctx.nearestIf⟩ st1 c
      let st3 := analyzeNode ⟨false, ctx.nearestIf⟩ st2 wt
      analyzeNode ⟨false, ctx.nearestIf⟩ st3 wf
  | .exprStmt e _ => analyzeNode ⟨false, ctx.nearestIf⟩ st e
  | .block ss _ => analyzeList ⟨false, ctx.nearestIf⟩ st ss
  | .ifStmt c thenS elseS ln =>
      let st1 := { st with
        conditions := st.conditions ++
          [⟨"if", render c, (render thenS).take 50,
            (match elseS with
             | some x => some ((render x).take 50)
             | none => none), ln⟩],
        complexity := st.complexity + 1 }
      let inCtx : Ctx := ⟨false, some (render c)⟩
      let st2 := analyzeNode inCtx st1 c
      let st3 := analyzeNode inCtx st2 thenS
      analyzeOpt inCtx st3 elseS
  | .switchStmt d cls ln =>
      let st1 := { st with
        conditions := st.conditions ++
          [⟨"switch", render d, toString cls.length ++ " cases", none, ln⟩],
        complexity := st.complexity + cls.length }
      let st2 := analyzeNode ⟨false, ctx.nearestIf⟩ st1 d
      analyzeList ⟨false, ctx.nearestIf⟩ st2 cls
  | .caseClause t ss _ =>
      let st1 := analyzeOpt ⟨false, ctx.nearestIf⟩ st t
      analyzeList ⟨false, ctx.nearestIf⟩ st1 ss
  | .forStmt variant init rest ln =>
      let loopVar : String :=
        match variant with
        | .classic => ""
        | _ => (match init with
                | some i => render i
                | none => "")
      let st1 := { st with
        loops := st.loops ++ [⟨"for", some loopVar, ln⟩],
        complexity := st.complexity + 2 }
      let st2 := analyzeOpt ⟨false, ctx.nearestIf⟩ st1 init
      analyzeList ⟨false, ctx.nearestIf⟩ st2 rest
  | .whileStmt c b ln =>
      let st1 := { st with
        loops := st.loops ++ [⟨"while", none, ln⟩],
        complexity := st.complexity + 2 }
      let st2 := analyzeNode ⟨false, ctx.nearestIf⟩ st1 c
      analyzeNode ⟨false, ctx.nearestIf⟩ st2 b
  | .throwStmt e ln =>
      let info : ErrorInfo :=
        match e with
        | .newExpr c eargs _ =>
            ⟨"throw", some (render c),
             some (match eargs with
                   | a :: _ => stripQuotes (render a)
                   | [] => ""), ln⟩
        | _ => ⟨"throw", some "Error", some "", ln⟩
      let st1 := { st with
        errorHandling := st.errorHandling ++ [info],
        complexity := st.complexity + 1 }
      analyzeNode ⟨false, ctx.nearestIf⟩ st1 e
  | .tryStmt tb c f ln =>
      let errorType :=
        match c with
        | some (.catchClause _ vt _ _) => jsOr (vt.getD "") "any"
        | _ => "any"
      let st1 := { st with
        errorHandling := st.errorHandling ++ [⟨"try-catch", some errorType, none, ln⟩],
        complexity := st.complexity + 1 }
      let st2 := analyzeNode ⟨false, ctx.nearestIf⟩ st1 tb
      let st3 := analyzeOpt ⟨false, ctx.nearestIf⟩ st2 c
      analyzeOpt ⟨false, ctx.nearestIf⟩ st3 f
  | .catchClause _ _ b _ => analyzeNode ⟨false, ctx.nearestIf⟩ st b
  | .returnStmt e ln =>
      let st1 := { st with
        returnStatements := st.returnStatements ++
          [⟨(match e with
             | some x => jsOr (render x) "void"
             | none => "void"), ctx.nearestIf, ln⟩] }
      analyzeOpt ⟨false, ctx.nearestIf⟩ st1 e
where
  analyzeList (ctx : Ctx) (st : FlowAnalysis) : List Node → FlowAnalysis
    | [] => st
    | x :: xs => analyzeList ctx (analyzeNode ctx st x) xs
  analyzeOpt (ctx : Ctx) (st : FlowAnalysis) : Option Node → FlowAnalysis
    | none => st
    | some x => analyzeNode ctx st x

/-- Analysing the body of the target function: the function node itself
matches no classifying branch, so the analysis is the seeded record folded
over the body statements. -/
def analyzeBody (body : List Node) : FlowAnalysis :=
  analyzeNode.analyzeList ⟨false, none⟩ FlowAnalysis.init body

/-- The complexity increment the classifying branches add at one node
(not counting its children): +1 for `if`, ternary, iteration-method call,
`throw` and `try`, +2 for loops, + (number of clauses) for `switch`. -/
def ownScore : Node → Nat
  | .callExpr callee _ _ =>
      match callee with
      | .propAccess _ m _ => if m ∈ iterMethods then 1 else 0
      | _ => 0
  | .ternary _ _ _ _ => 1
  | .ifStmt _ _ _ _ => 1
  | .switchStmt _ cls _ => cls.length
  | .forStmt _ _ _ _ => 2
  | .whileStmt _ _ _ => 2
  | .throwStmt _ _ => 1
  | .tryStmt _ _ _ _ => 1
  | _ => 0

/-- Total complexity contribution of a subtree: the node's own score plus
its children's. -/
def totalScore : Node → Nat
  | .ident _ _ => 0
  | .strLit _ _ => 0
  | .numLit _ _ => 0
  | .propAccess o _ _ => totalScore o
  | n@(.callExpr c args _) => ownScore n + totalScore c + listScore args
  | .newExpr c args _ => totalScore c + listScore args
  | .awaitExpr e _ => totalScore e
  | .ternary c t f _ => 1 + totalScore c + totalScore t + totalScore f
  | .exprStmt e _ => totalScore e
  | .block ss _ => listScore ss
  | .ifStmt c t e _ => 1 + totalScore c + totalScore t + optScore e
  | .switchStmt d cls _ => cls.length + totalScore d + listScore cls
  | .caseClause t ss _ => optScore t + listScore ss
  | .forStmt _ init rest _ => 2 + optScore init + listScore rest
  | .whileStmt c b _ => 2 + totalScore c + totalScore b
  | .throwStmt e _ => 1 + totalScore e
  | .tryStmt tb c f _ => 1 + totalScore tb + optScore c + optScore f
  | .catchClause _ _ b _ => totalScore b
  | .returnStmt e _ => optScore e
where
  listScore : List Node → Nat
    | [] => 0
    | x :: xs => totalScore x + listScore xs
  optScore : Option Node → Nat
    | none => 0
    | some x => totalScore x


/-! ## Type annotations and the type resolver (`src/type-resolver.ts`) -/

/-- Parsed type annotations: the `ts.TypeNode` forms the resolver's
syntactic fallback and the extractor's `extractTypeInfo` distinguish. -/
inductive TypeNode where
  | keyword (text : String)
  | unionT (types : List TypeNode)
  | intersectionT (types : List TypeNode)
  | tupleT (elements : List TypeNode)
  | literalT (lit : LitValue)
  | typeRef (name : String) (typeArgs : Option (List TypeNode))
deriving Repr

/-- `typeNode.getText()`. -/
def renderT : TypeNode → String
  | .keyword s => s
  | .unionT ts => String.intercalate " | " (renderTList ts)
  | .intersectionT ts => String.intercalate " & " (renderTList ts)
  | .tupleT els => "[" ++ String.intercalate ", " (renderTList els) ++ "]"
  | .literalT (.str s) => sq ++ s ++ sq
  | .literalT (.num n) => toString n
  | .literalT (.bool b) => if b then "true" else "false"
  | .typeRef name none => name
  | .typeRef name (some args) => name ++ "<" ++ String.intercalate ", " (renderTList args) ++ ">"
where
  renderTList : List TypeNode → List String
    | [] => []
    | x :: xs => renderT x :: renderTList xs

/-- `fallbackTypeInfo` of `TypeResolver` (basic parsing without the
compiler API): union, intersection, generic reference, literal, tuple,
then the default opaque shape. -/
def fallbackTypeInfo (tn : TypeNode) : TypeInfo :=
  let raw := renderT tn
  match tn with
  | .unionT ts =>
      let unionTypes := renderT.renderTList ts
      { TypeInfo.flat raw (unionTypes.headD "") true false false with
        unionTypes := some unionTypes }
  | .intersectionT ts =>
      let intersectionTypes := renderT.renderTList ts
      { TypeInfo.flat raw (intersectionTypes.headD "") false false true with
        intersectionTypes := some intersectionTypes }
  | .typeRef name (some args) =>
      { TypeInfo.flat raw name false true false with
        genericTypes := some (renderT.renderTList args) }
  | .literalT v =>
      { TypeInfo.flat raw v.jsTypeof false false false with
        isLiteral := some true, literalValue := some v }
  | .tupleT els =>
      { TypeInfo.flat raw "tuple" false false false with
        isTuple := some true, tupleTypes := some (fallbackList els) }
  | _ => TypeInfo.flat raw raw false false false
where
  fallbackList : List TypeNode → List TypeInfo
    | [] => []
    | x :: xs => fallbackTypeInfo x :: fallbackList xs

/-- Outcome of the semantic resolution attempt inside `resolveType`'s
`try` block: the checker produced a `TypeInfo` (via `getTypeFromTypeNode`
and `typeToTypeInfo`, which catches its own internal errors), or
`getTypeFromTypeNode` returned nothing, or something threw (caught by the
surrounding `catch`). -/
inductive SemanticOutcome where
  | ok (info : TypeInfo)
  | noType
  | threw

/-- The state of a `TypeResolver` instance: the optional program/checker
built from a discovered `tsconfig.json`, the project root, and the
`disposed` flag. The checker is modelled as an oracle from type nodes to
semantic outcomes. -/
structure ResolverState where
  program : Option Unit
  checker : Option (TypeNode → SemanticOutcome)
  projectRoot : String
  disposed : Bool

/-- The error thrown by `resolveType` after disposal
(`new Error('TypeResolver has been disposed')`). -/
inductive ResolverError where
  | resolverDisposed
deriving Repr, DecidableEq

/-- `TypeResolver.resolveType`: throws `ResolverDisposed` when disposed;
otherwise returns the default `any` shape for a missing node, the
syntactic fallback when no checker exists or the semantic attempt fails,
and the checker's result when it succeeds. -/
def resolveType (s : ResolverState) (typeNode : Option TypeNode) :
    Except ResolverError TypeInfo :=
  if s.disposed then .error .resolverDisposed
  else
    match typeNode with
    | none => .ok (TypeInfo.flat "any" "any" false false false)
    | some tn =>
      match s.checker with
      | none => .ok (fallbackTypeInfo tn)
      | some ck =>
        match ck tn with
        | .ok info => .ok info
        | .noType => .ok (fallbackTypeInfo tn)
        | .threw => .ok (fallbackTypeInfo tn)

/-- `TypeResolver.dispose`: early-returns when already disposed, else
clears the program and checker and sets the flag. -/
def dispose (s : ResolverState) : ResolverState :=
  if s.disposed then s
  else { s with program := none, checker := none, disposed := true }

/-- `TypeResolver.isDisposed`. -/
def isDisposed (s : ResolverState) : Bool := s.disposed

/-- The public operations of a `TypeResolver` instance, as state
transformers: `dispose` mutates, `isDisposed` and `resolveType` read
only. -/
inductive ResolverOp where
  | disposeOp
  | isDisposedOp
  | resolveTypeOp (typeNode : Option TypeNode)

/-- Effect of one public operation on the instance state. -/
def applyOp (s : ResolverState) : ResolverOp → ResolverState
  | .disposeOp => dispose s
  | .isDisposedOp => s
  | .resolveTypeOp _ => s

/-! ## Declaration extractor (`parseFile` and helpers) -/

/-- One element of a binding pattern: a `BindingElement` with its bound
name's text, or an omitted element (array holes). -/
inductive BindingElem where
  | binding (name : String)
  | omitted
deriving Repr, DecidableEq

/-- A parameter's binding name: a plain identifier, an object binding
pattern, or an array binding pattern. -/
inductive BindingName where
  | id (name : String)
  | objPattern (elements : List BindingElem)
  | arrPattern (elements : List BindingElem)
deriving Repr, DecidableEq

/-- `param.name.getText()`. -/
def bindingText : BindingName → String
  | .id n => n
  | .objPattern els =>
      "\x7b " ++ String.intercalate ", " (els.filterMap elemName) ++ " \x7d"
  | .arrPattern els =>
      "[" ++ String.intercalate ", " (els.map (fun e => (elemName e).getD "")) ++ "]"
where
  elemName : BindingElem → Option String
    | .binding n => some n
    | .omitted => none

/-- `el.name?.getText() || ''` for one pattern element. -/
def elemText : BindingElem → String
  | .binding n => n
  | .omitted => ""

/-- A `ts.ParameterDeclaration`. -/
structure ParameterDecl where
  name : BindingName
  typeAnn : Option TypeNode
  questionToken : Bool
  initializer : Option String
  dotDotDotToken : Bool
deriving Repr

/-- The `ParamInfo` interface from `src/types.ts` (as populated by
`extractParams`, which always sets `isRest`). -/
structure ParamInfo where
  name : String
  type : TypeInfo
  optional : Bool
  defaultValue : Option String
  isDestructured : Bool
  destructuredProps : Option (List String)
  isRest : Bool
deriving Repr

/-- The syntactic chain of the extractor's own `extractTypeInfo` (used
when no resolver is available or resolution throws): union,
intersection, tuple, literal, generic reference, the dead `never`
reference check, then the default opaque shape.  Note the order differs
from the resolver's `fallbackTypeInfo`. -/
def extractTypeInfoSyntactic (tn : TypeNode) : TypeInfo :=
  let raw := renderT tn
  match tn with
  | .unionT ts =>
      let unionTypes := renderT.renderTList ts
      { TypeInfo.flat raw (unionTypes.headD "") true false false with
        unionTypes := some unionTypes }
  | .intersectionT ts =>
      let intersectionTypes := renderT.renderTList ts
      { TypeInfo.flat raw (intersectionTypes.headD "") false false true with
        intersectionTypes := some intersectionTypes }
  | .tupleT els =>
      { TypeInfo.flat raw "tuple" false false false with
        isTuple := some true, tupleTypes := some (syntList els) }
  | .literalT v =>
      { TypeInfo.flat raw v.jsTypeof false false false with
        isLiteral := some true, literalValue := some v }
  | .typeRef name (some args) =>
      { TypeInfo.flat raw name false true false with
        genericTypes := some (renderT.renderTList args) }
  | .typeRef name none =>
      if name = "never" then
        { TypeInfo.flat raw "never" false false false with isNever := some true }
      else TypeInfo.flat raw raw false false false
  | _ => TypeInfo.flat raw raw false false false
where
  syntList : List TypeNode → List TypeInfo
    | [] => []
    | x :: xs => extractTypeInfoSyntactic x :: syntList xs

/-- The extractor's `extractTypeInfo`: `any` for a missing annotation;
otherwise try the module-level resolver if one was installed (falling
back to basic parsing when it throws), else parse syntactically. -/
def extractTypeInfo (resolver : Option ResolverState) (typeNode : Option TypeNode) : TypeInfo :=
  match typeNode with
  | none => TypeInfo.flat "any" "any" false false false
  | some tn =>
    match resolver with
    | some rs =>
      match resolveType rs (some tn) with
      | .ok info => info
      | .error _ => extractTypeInfoSyntactic tn
    | none => extractTypeInfoSyntactic tn

/-- `extractParams`: for each parameter, the binding text, resolved type,
optional marker, default-value text, destructuring flag and bound-name
list (empty texts filtered out, as `filter(Boolean)` does), and the rest
flag from the `...` token. -/
def extractParams (resolver : Option ResolverState) (parameters : List ParameterDecl) :
    List ParamInfo :=
  parameters.map (fun param =>
    let isDestructured :=
      match param.name with
      | .objPattern _ => true
      | .arrPattern _ => true
      | .id _ => false
    let destructuredProps :=
      match param.name with
      | .objPattern els => some ((els.map elemText).filter (fun s => s ≠ ""))
      | .arrPattern els => some ((els.map elemText).filter (fun s => s ≠ ""))
      | .id _ => none
    { name := bindingText param.name,
      type := extractTypeInfo resolver param.typeAnn,
      optional := param.questionToken,
      defaultValue := param.initializer,
      isDestructured := isDestructured,
      destructuredProps := destructuredProps,
      isRest := param.dotDotDotToken })

/-- Modifier keywords `hasModifier` is called with. -/
inductive Modifier where
  | exportM
  | defaultM
  | asyncM
  | staticM
  | privateM
  | protectedM
  | publicM
deriving Repr, DecidableEq

/-- A `ts.FunctionDeclaration`: optional name (anonymous declarations
exist), parameters, optional return-type annotation, modifiers, and the
decorator/JSDoc texts the helpers extract. -/
structure FunctionDecl where
  name : Option String
  parameters : List ParameterDecl
  typeAnn : Option TypeNode
  modifiers : List Modifier
  decorators : Option (List String)
  jsdoc : Option String
deriving Repr

/-- The `FunctionInfo` interface from `src/types.ts` (fields
`extractFunctionInfo` populates; absent optional fields are `none`). -/
structure FunctionInfo where
  name : String
  params : List ParamInfo
  returnType : TypeInfo
  isAsync : Bool
  isExported : Bool
  isDefaultExport : Bool
  kind : String
  accessModifier : Option String
  className : Option String
  isStatic : Option Bool
  decorators : Option (List String)
  jsdoc : Option String
deriving Repr

/-- `hasModifier`. -/
def hasModifier (node : FunctionDecl) (m : Modifier) : Bool :=
  node.modifiers.contains m

/-- `extractFunctionInfo` for a standalone function declaration: skipped
(`null`) when the name is missing or empty, else the record with params,
return type, and the async/export/default flags from the modifiers. -/
def extractFunctionInfo (resolver : Option ResolverState) (node : FunctionDecl)
    (kind : String) (className : Option String) : Option FunctionInfo :=
  match node.name with
  | none => none
  | some name =>
    if name = "" then none
    else
      some { name := name,
             params := extractParams resolver node.parameters,
             returnType := extractTypeInfo resolver node.typeAnn,
             isAsync := hasModifier node .asyncM,
             isExported := hasModifier node .exportM,
             isDefaultExport := hasModifier node .defaultM,
             kind := kind,
             accessModifier := none,
             className := className,
             isStatic := none,
             decorators := node.decorators,
             jsdoc := node.jsdoc }

/-- The `visit` traversal of `parseFile`, restricted to a source file
whose top-level statements are standalone function declarations (case 1
of `visit`): each is extracted with kind `function` and no owning class,
and `null` results are skipped. -/
def parseFunctions (resolver : Option ResolverState) (decls : List FunctionDecl) :
    List FunctionInfo :=
  decls.filterMap (fun d => extractFunctionInfo resolver d "function" none)

/-- A resolver argument that carries no semantic checker (either the
module-level `typeResolver` is `null`, or its construction found no
`tsconfig.json` so `this.checker` is undefined). -/
def noChecker : Option ResolverState → Bool
  | none => true
  | some rs => rs.checker.isNone

/-! ## `findProjectRoot`: the upward directory walk -/

/-- `findProjectRoot`'s loop, on directories modelled as component lists
below the filesystem root (`[]` is the root, `path.dirname` is
`dropLast`).  `hasPackageJson` is the `fs.existsSync` probe for
`dir/package.json`; `cwd` is `process.cwd()`, returned when the loop
reaches the root without a hit. -/
def findProjectRoot (hasPackageJson : List String → Bool) (cwd : List String) :
    List String → List String
  | [] => cwd
  | dir@(_ :: _) =>
      if hasPackageJson dir then dir
      else findProjectRoot hasPackageJson cwd dir.dropLast
termination_by dir => dir.length
decreasing_by
  simp_all [List.length_dropLast]

/-- Number of loop iterations (directories probed) the walk performs. -/
def fprSteps (hasPackageJson : List String → Bool) : List String → Nat
  | [] => 0
  | dir@(_ :: _) =>
      if hasPackageJson dir then 1
      else 1 + fprSteps hasPackageJson dir.dropLast
termination_by dir => dir.length
decreasing_by
  simp_all [List.length_dropLast]


/-! ## Claim-side predicates and concrete inputs -/

/-- Non-emptiness of an optional member list. -/
def nonemptyOpt (o : Option (List String)) : Bool :=
  match o with
  | none => true
  | some l => !l.isEmpty

/-- The data-model invariant defining a constructible type shape: where a
Union/Intersection/Generic member list or a tuple element list is
present, it is non-empty, and tuple elements are themselves
constructible.  (This is the `TypeShape` invariant of the data model:
Union/Intersection/Tuple/Generic variants are non-empty.) -/
def constructible : TypeInfo → Bool
  | ⟨_, _, _, _, _, g, u, i, _, _, _, tt, _, _, _, _⟩ =>
    nonemptyOpt g && nonemptyOpt u && nonemptyOpt i
      && (match tt with
          | none => true
          | some l => !l.isEmpty && constructibleList l)
where
  constructibleList : List TypeInfo → Bool
    | [] => true
    | x :: xs => constructible x && constructibleList xs

/-- A body statement of the form the independent-`if` property quantifies
over: an `if` statement whose condition, then-branch and optional
else-branch contain nothing the analyzer scores. -/
def IsSimpleIf (n : Node) : Prop :=
  ∃ c t e ln, n = Node.ifStmt c t e ln ∧ totalScore c = 0 ∧ totalScore t = 0
    ∧ totalScore.optScore e = 0

/-- The parameter list of `function add(a: number, b: number): number`. -/
def addParams : List ParameterDecl :=
  [⟨.id "a", some (.keyword "number"), false, none, false⟩,
   ⟨.id "b", some (.keyword "number"), false, none, false⟩]

/-- The declaration `function add(a: number, b: number): number` with an empty body. -/
def addDecl : FunctionDecl :=
  ⟨some "add", addParams, some (.keyword "number"), [], none, none⟩

/-- The `Primitive(number)` shape: `TypeInfo` with raw and base type
`number` and no structure flags. -/
def numberShape : TypeInfo := TypeInfo.flat "number" "number" false false false

/-- The `FunctionRecord` the spec expects for `add`. -/
def addInfo : FunctionInfo :=
  { name := "add",
    params := [⟨"a", numberShape, false, none, false, none, false⟩,
               ⟨"b", numberShape, false, none, false, none, false⟩],
    returnType := numberShape,
    isAsync := false,
    isExported := false,
    isDefaultExport := false,
    kind := "function",
    accessModifier := none,
    className := none,
    isStatic := none,
    decorators := none,
    jsdoc := none }


/-- A concrete shape exercising the synthesizer: a tuple of a two-member
union and a `Promise<number>` generic. -/
def mockWitnessShape : TypeInfo :=
  ⟨"[string | number, Promise<number>]", false, false, false, "tuple",
   none, none, none, none, none, some true,
   some [⟨"string | number", true, false, false, "string", none,
          some ["string", "number"], none, none, none, none, none, none, none, none, none⟩,
         ⟨"Promise<number>", false, true, false, "Promise", some ["number"],
          none, none, none, none, none, none, none, none, none, none⟩],
   none, none, none, none⟩


/-! ## Supporting lemmas -/

theorem tsize_eq (t : TypeInfo) :
    tsize t = 1 + optFlag t.unionTypes + optFlag t.intersectionTypes
      + optFlag t.genericTypes + tupPart t.tupleTypes := by
  obtain ⟨r, iu, ig, ii, bt, g, u, i, lt, lv, itp, tt, nv, nl, ud, rt⟩ := t
  cases tt <;> rfl

theorem tsize_tlist_le {x : TypeInfo} {l : List TypeInfo} (h : x ∈ l) :
    tsize x ≤ tsize.tlist l := by
  induction l with
  | nil => simp at h
  | cons y ys ih =>
    cases List.mem_cons.mp h with
    | inl he =>
      subst he
      simp [tsize.tlist]
    | inr hm =>
      have := ih hm
      simp [tsize.tlist]
      omega

theorem tsize_union_lt (t : TypeInfo) (b : String) (h : t.unionTypes.isSome) :
    tsize { t with isUnion := false, baseType := b, unionTypes := none } < tsize t := by
  rw [tsize_eq, tsize_eq]
  simp only [optFlag]
  simp [h]

theorem tsize_inter_lt (t : TypeInfo) (b : String) (h : t.intersectionTypes.isSome) :
    tsize { t with isIntersection := false, baseType := b, intersectionTypes := none } < tsize t := by
  rw [tsize_eq, tsize_eq]
  simp only [optFlag]
  simp [h]

theorem tsize_tuple_lt (t : TypeInfo) (l : List TypeInfo) (x : TypeInfo)
    (hl : t.tupleTypes = some l) (hx : x ∈ l) : tsize x < tsize t := by
  have h1 := tsize_tlist_le hx
  have h2 := tsize_eq t
  rw [hl] at h2
  simp only [tupPart] at h2
  omega

theorem tsize_flat (a b : String) (x y z : Bool) :
    tsize (TypeInfo.flat a b x y z) = 1 := rfl

theorem tsize_generic_ge (t : TypeInfo) (h : t.genericTypes.isSome) : 2 ≤ tsize t := by
  rw [tsize_eq]
  simp only [optFlag]
  simp [h]
  omega

theorem getD_length_pos_isSome {o : Option (List String)} (h : 0 < (o.getD []).length) :
    o.isSome := by
  cases o <;> simp_all

mutual

theorem analyzeNode_complexity (n : Node) : ∀ (ctx : Ctx) (st : FlowAnalysis),
    (analyzeNode ctx st n).complexity = st.complexity + totalScore n := by
  cases n with
  | ident name ln => intro ctx st; simp [analyzeNode, totalScore]
  | strLit v ln => intro ctx st; simp [analyzeNode, totalScore]
  | numLit t ln => intro ctx st; simp [analyzeNode, totalScore]
  | propAccess o nm ln =>
    intro ctx st
    rw [show analyzeNode ctx st (.propAccess o nm ln)
          = analyzeNode ⟨false, ctx.nearestIf⟩ st o from rfl]
    rw [analyzeNode_complexity o]
    rfl
  | callExpr c args ln =>
    intro ctx st
    simp only [analyzeNode]
    rw [analyzeList_complexity args, analyzeNode_complexity c]
    simp only [totalScore, ownScore]
    cases c with
    | propAccess o m l2 =>
      by_cases hm : m ∈ iterMethods <;>
        simp [hm, apply_ite (f := FlowAnalysis.complexity)] <;> omega
    | _ => simp [apply_ite (f := FlowAnalysis.complexity)] <;> omega
  | newExpr c args ln =>
    intro ctx st
    simp only [analyzeNode]
    rw [analyzeList_complexity args, analyzeNode_complexity c]
    simp [totalScore]
    omega
  | awaitExpr e ln =>
    intro ctx st
    simp only [analyzeNode]
    rw [analyzeNode_complexity e]
    rfl
  | ternary c wt wf ln =>
    intro ctx st
    simp only [analyzeNode]
    rw [analyzeNode_complexity wf, analyzeNode_complexity wt, analyzeNode_complexity c]
    simp [totalScore]
    omega
  | exprStmt e ln =>
    intro ctx st
    simp only [analyzeNode]
    rw [analyzeNode_complexity e]
    rfl
  | block ss ln =>
    intro ctx st
    simp only [analyzeNode]
    rw [analyzeList_complexity ss]
    rfl
  | ifStmt c t e ln =>
    intro ctx st
    simp only [analyzeNode]
    rw [analyzeOpt_complexity e, analyzeNode_complexity t, analyzeNode_complexity c]
    simp [totalScore]
    omega
  | switchStmt d cls ln =>
    intro ctx st
    simp only [analyzeNode]
    rw [analyzeList_complexity cls, analyzeNode_complexity d]
    simp [totalScore]
    omega
  | caseClause t ss ln =>
    intro ctx st
    simp only [analyzeNode]
    rw [analyzeList_complexity ss, analyzeOpt_complexity t]
    simp [totalScore]
    omega
  | forStmt v init rest ln =>
    intro ctx st
    simp only [analyzeNode]
    rw [analyzeList_complexity rest, analyzeOpt_complexity init]
    simp [totalScore]
    omega
  | whileStmt c b ln =>
    intro ctx st
    simp only [analyzeNode]
    rw [analyzeNode_complexity b, analyzeNode_complexity c]
    simp [totalScore]
    omega
  | throwStmt e ln =>
    intro ctx st
    simp only [analyzeNode]
    rw [analyzeNode_complexity e]
    simp [totalScore]
    omega
  | tryStmt tb c f ln =>
    intro ctx st
    simp only [analyzeNode]
    rw [analyzeOpt_complexity f, analyzeOpt_complexity c, analyzeNode_complexity tb]
    simp [totalScore]
    omega
  | catchClause vn vt b ln =>
    intro ctx st
    simp only [analyzeNode]
    rw [analyzeNode_complexity b]
    rfl
  | returnStmt e ln =>
    intro ctx st
    simp only [analyzeNode]
    rw [analyzeOpt_complexity e]
    simp [totalScore]

theorem analyzeList_complexity (l : List Node) : ∀ (ctx : Ctx) (st : FlowAnalysis),
    (analyzeNode.analyzeList ctx st l).complexity = st.complexity + totalScore.listScore l := by
  cases l with
  | nil => intro ctx st; simp [analyzeNode.analyzeList, totalScore.listScore]
  | cons x xs =>
    intro ctx st
    simp only [analyzeNode.analyzeList]
    rw [analyzeList_complexity xs, analyzeNode_complexity x]
    simp [totalScore.listScore]
    omega

theorem analyzeOpt_complexity (o : Option Node) : ∀ (ctx : Ctx) (st : FlowAnalysis),
    (analyzeNode.analyzeOpt ctx st o).complexity = st.complexity + totalScore.optScore o := by
  cases o with
  | none => intro ctx st; simp [analyzeNode.analyzeOpt, totalScore.optScore]
  | some x =>
    intro ctx st
    simp only [analyzeNode.analyzeOpt]
    rw [analyzeNode_complexity x]
    simp [totalScore.optScore]

end

/-- Complexity of an analysed body: the seed 1 plus the statements'
total scores. -/
theorem analyzeBody_complexity (body : List Node) :
    (analyzeBody body).complexity = 1 + totalScore.listScore body := by
  unfold analyzeBody
  rw [analyzeList_complexity body]
  rfl

theorem listScore_append (a b : List Node) :
    totalScore.listScore (a ++ b) = totalScore.listScore a + totalScore.listScore b := by
  induction a with
  | nil => simp [totalScore.listScore]
  | cons x xs ih =>
    simp [totalScore.listScore, ih]
    omega


theorem except_map_isOk {ε α β : Type _} (f : α → β) (e : Except ε α) :
    (e.map f).isOk = e.isOk := by
  cases e <;> rfl

theorem list_mapM_isOk {α ε β : Type _} (l : List α) (f : α → Except ε β)
    (h : ∀ x ∈ l, (f x).isOk = true) : (l.mapM f).isOk = true := by
  induction l with
  | nil => rfl
  | cons x xs ih =>
    rw [List.mapM_cons]
    have hx := h x (by simp)
    cases hfx : f x with
    | error e =>
      rw [hfx] at hx
      simp [Except.isOk, Except.toBool] at hx
    | ok a =>
      have hxs := ih (fun y hy => h y (by simp [hy]))
      cases hmm : xs.mapM f with
      | error e =>
        rw [hmm] at hxs
        simp [Except.isOk, Except.toBool] at hxs
      | ok bs =>
        simp [hfx, hmm]
        rfl

theorem constructibleList_mem {l : List TypeInfo} {x : TypeInfo}
    (hl : constructible.constructibleList l = true) (hx : x ∈ l) :
    constructible x = true := by
  induction l with
  | nil => simp at hx
  | cons y ys ih =>
    rw [constructible.constructibleList] at hl
    simp only [Bool.and_eq_true] at hl
    cases List.mem_cons.mp hx with
    | inl he =>
      subst he
      exact hl.1
    | inr hm => exact ih hl.2 hm

/-- Claim C1 (error_handling).  A resolution call raises if and only if
the instance has been released: when disposed, `resolveType` raises
exactly the `ResolverDisposed` error; when live, it always answers with a
shape — in particular, when the semantic checker throws, the answer is
the syntactic fallback shape for the node. -/
theorem resolveType_raises_iff_disposed (s : ResolverState) (tn : Option TypeNode) :
    ((resolveType s tn).isOk = !s.disposed)
    ∧ (s.disposed = true → resolveType s tn = .error .resolverDisposed)
    ∧ (s.disposed = false → ∀ ck t0, s.checker = some ck → tn = some t0 →
        ck t0 = .threw → resolveType s tn = .ok (fallbackTypeInfo t0)) := by
  refine ⟨?_, ?_, ?_⟩
  · cases hd : s.disposed with
    | true => simp [resolveType, hd, Except.isOk, Except.toBool]
    | false =>
      simp only [resolveType, hd, Bool.not_false, if_false]
      cases tn with
      | none => simp [Except.isOk, Except.toBool]
      | some t0 =>
        cases hc : s.checker with
        | none => simp [Except.isOk, Except.toBool]
        | some ck =>
          cases ho : ck t0 <;> simp [ho, Except.isOk, Except.toBool]
  · intro hd
    simp [resolveType, hd]
  · intro hd ck t0 hck htn hthrew
    subst htn
    simp [resolveType, hd, hck, hthrew]

/-- Witness for C1 at a concrete live resolver whose checker throws, and
at its disposed counterpart. -/
theorem resolveType_raises_iff_disposed_witness :
    resolveType ⟨some (), some (fun _ => .threw), "proj", false⟩ (some (.keyword "number"))
      = .ok (fallbackTypeInfo (.keyword "number"))
    ∧ resolveType ⟨some (), some (fun _ => .threw), "proj", true⟩ (some (.keyword "number"))
      = .error .resolverDisposed :=
  ⟨(resolveType_raises_iff_disposed ⟨some (), some (fun _ => .threw), "proj", false⟩
      (some (.keyword "number"))).2.2 rfl (fun _ => .threw) (.keyword "number") rfl rfl rfl,
   (resolveType_raises_iff_disposed ⟨some (), some (fun _ => .threw), "proj", true⟩
      (some (.keyword "number"))).2.1 rfl⟩

theorem foldl_applyOp_disposed (ops : List ResolverOp) :
    ∀ (s : ResolverState), s.disposed = true → (ops.foldl applyOp s).disposed = true := by
  induction ops with
  | nil =>
    intro s h
    simpa using h
  | cons op rest ih =>
    intro s h
    rw [List.foldl_cons]
    apply ih
    cases op with
    | disposeOp => simp [applyOp, dispose, h]
    | isDisposedOp => simpa [applyOp] using h
    | resolveTypeOp tn => simpa [applyOp] using h

/-- Claim C10 (algebraic_relational).  Release is idempotent and
irreversible: `dispose` on a disposed instance returns the state
unchanged, `dispose` twice equals `dispose` once, after a `dispose` the
flag reads true, and no sequence of further public operations ever makes
`isDisposed` false again. -/
theorem dispose_idempotent_irreversible (s : ResolverState) :
    (dispose s).disposed = true
    ∧ dispose (dispose s) = dispose s
    ∧ (s.disposed = true → dispose s = s)
    ∧ isDisposed (dispose s) = true
    ∧ ∀ ops : List ResolverOp, isDisposed (ops.foldl applyOp (dispose s)) = true := by
  have hfix : ∀ s2 : ResolverState, s2.disposed = true → dispose s2 = s2 := by
    intro s2 h
    simp [dispose, h]
  have h1 : (dispose s).disposed = true := by
    cases hd : s.disposed with
    | true =>
      rw [hfix s hd]
      exact hd
    | false => simp [dispose, hd]
  exact ⟨h1, hfix _ h1, hfix s, h1, fun ops => foldl_applyOp_disposed ops (dispose s) h1⟩

/-- Witness for C10: a live instance, disposed, then probed and disposed
again, still reads disposed. -/
theorem dispose_idempotent_irreversible_witness :
    isDisposed ([ResolverOp.isDisposedOp, ResolverOp.disposeOp,
        ResolverOp.resolveTypeOp none].foldl applyOp
      (dispose ⟨some (), none, "proj", false⟩)) = true :=
  (dispose_idempotent_irreversible ⟨some (), none, "proj", false⟩).2.2.2.2
    [ResolverOp.isDisposedOp, ResolverOp.disposeOp, ResolverOp.resolveTypeOp none]



/-- Claim C5 (algebraic_relational).  Union synthesis uses only the first
member: a union shape with member texts `[a, b]` synthesizes exactly as
the singleton shape with member list `[a]` alone, whatever the other
fields of the shape are.  (In the code, union members are the member
type texts.) -/
theorem union_synthesis_uses_first_member (t : TypeInfo) (a b : String) :
    generateMockValueForType { t with isUnion := true, unionTypes := some [a, b] }
      = generateMockValueForType { t with isUnion := true, unionTypes := some [a] } := by
  conv_lhs => rw [generateMockValueForType]
  conv_rhs => rw [generateMockValueForType]
  rfl

/-- Counterexample for claim C9: a rest parameter bound to an array
destructuring pattern (`...[a, b]: [number, number]`) is extracted with
`isDestructured = true` and `isRest = true` simultaneously, so the two
flags are not mutually exclusive. -/
theorem rest_destructured_param_both_flags :
    (extractParams none
        [⟨.arrPattern [.binding "a", .binding "b"],
          some (.tupleT [.keyword "number", .keyword "number"]), false, none, true⟩]).map
      (fun p => (p.isDestructured, p.isRest)) = [(true, true)] := by decide

/-- Claim C9 as amended: `isDestructured` holds exactly for binding
patterns (so it is exclusive with a plain identifier name), while
`isRest` is set independently from the `...` token and can co-occur with
`isDestructured`. -/
theorem param_flags_characterization (r : Option ResolverState) (param : ParameterDecl) :
    ∃ pi, extractParams r [param] = [pi]
      ∧ pi.isDestructured = (match param.name with
          | .id _ => false
          | .objPattern _ => true
          | .arrPattern _ => true)
      ∧ pi.isRest = param.dotDotDotToken := by
  obtain ⟨pn, ta, q, init, ddd⟩ := param
  refine ⟨_, rfl, ?_, rfl⟩
  cases pn <;> rfl

theorem fprSteps_const_false : (l : List String) → fprSteps (fun _ => false) l = l.length
  | [] => by simp [fprSteps]
  | x :: xs => by
      rw [fprSteps]
      rw [fprSteps_const_false (x :: xs).dropLast]
      simp [List.length_dropLast]
      omega
termination_by l => l.length
decreasing_by
  simp [List.length_dropLast]

/-- Counterexample for claim C8: the walk has no maximum-depth bound —
for every candidate bound there is a starting path on which the loop
probes more directories (the walk visits one directory per path
component, unboundedly over all inputs). -/
theorem findProjectRoot_no_depth_bound :
    ¬ ∃ D : Nat, ∀ start : List String, fprSteps (fun _ => false) start ≤ D := by
  rintro ⟨D, hD⟩
  have h1 := hD (List.replicate (D + 1) "a")
  rw [fprSteps_const_false] at h1
  simp at h1

/-- Claim C8 as amended: the upward walk terminates for every starting
path and returns a definite result — but not through a depth bound or a
visited set (the code has neither): the loop probes at most one
directory per path component because `path.dirname` strictly shortens the
path, and the result is either the current working directory or a
non-root ancestor (a prefix of the start) that contains `package.json`. -/
theorem findProjectRoot_terminates_definite (fs : List String → Bool) (cwd : List String) :
    ∀ start : List String,
    fprSteps fs start ≤ start.length
    ∧ (findProjectRoot fs cwd start = cwd
        ∨ (fs (findProjectRoot fs cwd start) = true
            ∧ findProjectRoot fs cwd start <+: start
            ∧ findProjectRoot fs cwd start ≠ []))
  | [] => by
      refine ⟨by simp [fprSteps], Or.inl ?_⟩
      simp [findProjectRoot]
  | x :: xs => by
      have hunf : findProjectRoot fs cwd (x :: xs)
          = if fs (x :: xs) then (x :: xs) else findProjectRoot fs cwd (x :: xs).dropLast := by
        rw [findProjectRoot]
      have hsunf : fprSteps fs (x :: xs)
          = if fs (x :: xs) then 1 else 1 + fprSteps fs (x :: xs).dropLast := by
        rw [fprSteps]
      by_cases hfs : fs (x :: xs) = true
      · rw [hunf, hsunf, if_pos hfs, if_pos hfs]
        exact ⟨by simp, Or.inr ⟨hfs, List.prefix_refl _, by simp⟩⟩
      · rw [hunf, hsunf, if_neg hfs, if_neg hfs]
        have ih := findProjectRoot_terminates_definite fs cwd (x :: xs).dropLast
        refine ⟨?_, ?_⟩
        · have h1 := ih.1
          simp [List.length_dropLast] at h1 ⊢
          omega
        · cases ih.2 with
          | inl h => exact Or.inl h
          | inr h => exact Or.inr ⟨h.1, h.2.1.trans ( List.dropLast_prefix _), h.2.2⟩
termination_by start => start.length
decreasing_by
  simp [List.length_dropLast]


/-- Counterexample for claim C2: a switch with exactly one case clause
plus a default clause adds 2 to the complexity — the code counts every
clause of the case block (`caseBlock.clauses.length`), not only the case
clauses — so the body scores 3, not 1 + 1. -/
theorem switch_with_default_breaks_case_count :
    (([Node.caseClause (some (.numLit "1" 1)) [] 1,
       Node.caseClause none [] 2]).countP
        (fun cl => match cl with
          | .caseClause (some _) _ _ => true
          | _ => false) = 1)
    ∧ (analyzeBody [.switchStmt (.ident "x" 1)
        [.caseClause (some (.numLit "1" 1)) [] 1, .caseClause none [] 2] 1]).complexity = 3
    ∧ ¬ ((analyzeBody [.switchStmt (.ident "x" 1)
        [.caseClause (some (.numLit "1" 1)) [] 1,
         .caseClause none [] 2] 1]).complexity = 1 + 1) := by
  decide

/-- Claim C2 as amended: a switch adds to the complexity exactly the
number of clauses in its case block — case clauses plus any default
clause — independent of its position among the other statements,
provided its discriminant and clauses contain nothing else the analyzer
scores. -/
theorem switch_adds_clause_count (pre post : List Node) (d : Node) (cls : List Node) (ln : Nat)
    (hd : totalScore d = 0) (hcls : totalScore.listScore cls = 0) :
    (analyzeBody (pre ++ [Node.switchStmt d cls ln] ++ post)).complexity
      = (analyzeBody (pre ++ post)).complexity + cls.length := by
  rw [analyzeBody_complexity, analyzeBody_complexity]
  rw [listScore_append, listScore_append, listScore_append]
  simp [totalScore, totalScore.listScore, hd, hcls]
  omega

/-- Witness for the amended C2 at a concrete position: one statement
before, one after, one case clause and one default clause. -/
theorem switch_adds_clause_count_witness :
    (analyzeBody ([Node.exprStmt (.ident "x" 1) 1]
        ++ [Node.switchStmt (.ident "y" 2)
              [.caseClause (some (.numLit "1" 2)) [] 2, .caseClause none [] 3] 2]
        ++ [Node.returnStmt none 4])).complexity
      = (analyzeBody ([Node.exprStmt (.ident "x" 1) 1]
          ++ [Node.returnStmt none 4])).complexity + 2 :=
  switch_adds_clause_count [Node.exprStmt (.ident "x" 1) 1] [Node.returnStmt none 4]
    (.ident "y" 2) [.caseClause (some (.numLit "1" 2)) [] 2, .caseClause none [] 3] 2
    (by decide) (by decide)

/-- Claim C6 (functional_correctness).  An empty function body yields
complexity 1 with empty conditions and loops lists; a body of N
independent, non-nested `if` statements containing nothing else the
analyzer scores yields complexity 1 + N. -/
theorem empty_body_and_independent_ifs :
    (analyzeBody [] = ⟨[], [], [], [], [], 1⟩)
    ∧ ∀ body : List Node, (∀ s ∈ body, IsSimpleIf s) →
        (analyzeBody body).complexity = 1 + body.length := by
  refine ⟨rfl, ?_⟩
  have hscore : ∀ (b : List Node), (∀ s ∈ b, IsSimpleIf s) →
      totalScore.listScore b = b.length := by
    intro b
    induction b with
    | nil => intro _; rfl
    | cons s ss ih =>
      intro hb
      obtain ⟨cnd, thn, els, ln, hs, hc, ht, he⟩ := hb s (by simp)
      subst hs
      rw [totalScore.listScore]
      rw [ih (fun y hy => hb y (by simp [hy]))]
      simp [totalScore, hc, ht, he]
      omega
  intro body hbody
  rw [analyzeBody_complexity, hscore body hbody]

/-- Witness for C6 at a concrete body of two independent `if`s. -/
theorem empty_body_and_independent_ifs_witness :
    (analyzeBody [Node.ifStmt (.ident "a" 1) (.block [] 1) none 1,
                  Node.ifStmt (.ident "b" 2) (.block [] 2) none 2]).complexity = 1 + 2 :=
  empty_body_and_independent_ifs.2 _ (by
    intro s hs
    simp at hs
    cases hs with
    | inl h => exact ⟨_, _, _, _, h, rfl, rfl, rfl⟩
    | inr h => exact ⟨_, _, _, _, h, rfl, rfl, rfl⟩)

/-- Counterexample for claim C3: `items.forEach(cb)` is recorded as an
iteration loop and ALSO as an external call — the counted iteration
methods are not in the external-call allowlist, which only filters callee
texts starting with console/Math/Date/JSON/Object/Array or containing
`.length`/`.toString`. -/
theorem forEach_call_recorded_externally :
    (analyzeBody [.exprStmt (.callExpr (.propAccess (.ident "items" 1) "forEach" 1)
        [.ident "cb" 1] 1) 1]).externalCalls = [⟨"items.forEach", false, 1⟩]
    ∧ (analyzeBody [.exprStmt (.callExpr (.propAccess (.ident "items" 1) "forEach" 1)
        [.ident "cb" 1] 1) 1]).loops = [⟨"forEach", some "items", 1⟩] := by
  decide

/-- Claim C3 as amended: a call whose callee is a property access with a
counted iteration-method name is recorded as a loop AND as an external
call, unless its full callee text starts with one of the six builtin
prefixes or contains `.length`/`.toString`; the external call is tagged
async exactly when the call's immediate parent is an await. -/
theorem iteration_call_loop_and_external (recv m arg : String) (ln : Nat)
    (hm : m ∈ iterMethods) :
    (analyzeBody [.exprStmt (.callExpr (.propAccess (.ident recv ln) m ln)
        [.ident arg ln] ln) ln]).loops = [⟨m, some recv, ln⟩]
    ∧ (analyzeBody [.exprStmt (.callExpr (.propAccess (.ident recv ln) m ln)
        [.ident arg ln] ln) ln]).externalCalls
      = (if isSkippedCall (recv ++ "." ++ m) then [] else [⟨recv ++ "." ++ m, false, ln⟩])
    ∧ (analyzeBody [.exprStmt (.awaitExpr (.callExpr (.propAccess (.ident recv ln) m ln)
        [.ident arg ln] ln) ln) ln]).externalCalls
      = (if isSkippedCall (recv ++ "." ++ m) then [] else [⟨recv ++ "." ++ m, true, ln⟩]) := by
  refine ⟨?_, ?_, ?_⟩ <;>
    simp [analyzeBody, analyzeNode.analyzeList, analyzeNode, FlowAnalysis.init, hm, render,
      apply_ite (f := FlowAnalysis.loops), apply_ite (f := FlowAnalysis.externalCalls)]

/-- Witness for the amended C3 at `xs.map(f)` and `await xs.map(f)`. -/
theorem iteration_call_loop_and_external_witness :
    (analyzeBody [.exprStmt (.callExpr (.propAccess (.ident "xs" 3) "map" 3)
        [.ident "f" 3] 3) 3]).loops = [⟨"map", some "xs", 3⟩]
    ∧ (analyzeBody [.exprStmt (.callExpr (.propAccess (.ident "xs" 3) "map" 3)
        [.ident "f" 3] 3) 3]).externalCalls = [⟨"xs.map", false, 3⟩]
    ∧ (analyzeBody [.exprStmt (.awaitExpr (.callExpr (.propAccess (.ident "xs" 3) "map" 3)
        [.ident "f" 3] 3) 3) 3]).externalCalls = [⟨"xs.map", true, 3⟩] :=
  iteration_call_loop_and_external "xs" "map" "f" 3 (by decide)

/-- Claim C7 (functional_correctness).  Extracting a file containing
`function add(a: number, b: number): number` with no semantic checker
available yields exactly one record: name `add`, parameters `a` and `b`
in source order, each with the `number` primitive shape, return type
`number`, kind `function`, and `isExported = false`. -/
theorem extract_add_record (r : Option ResolverState) (h : noChecker r = true) :
    parseFunctions r [addDecl] = [addInfo] := by
  cases r with
  | none => rfl
  | some rs =>
    simp only [noChecker] at h
    have hc : rs.checker = none := by
      cases hck : rs.checker with
      | none => rfl
      | some ck =>
        rw [hck] at h
        simp at h
    have hnum : extractTypeInfo (some rs) (some (TypeNode.keyword "number")) = numberShape := by
      simp only [extractTypeInfo, resolveType, hc]
      cases hd : rs.disposed with
      | true =>
        simp [hd]
        rfl
      | false =>
        simp [hd]
        rfl
    simp [parseFunctions, extractFunctionInfo, addDecl, addParams, extractParams,
      hasModifier, bindingText, hnum, addInfo, numberShape]

/-- Witness for C7 with no resolver installed. -/
theorem extract_add_record_witness : parseFunctions none [addDecl] = [addInfo] :=
  extract_add_record none rfl



theorem constructible_update_union (t : TypeInfo) (b : String) (hc : constructible t = true) :
    constructible { t with isUnion := false, baseType := b, unionTypes := none } = true := by
  obtain ⟨r0, iu, ig, ii, bt, g, u, i, lt0, lv, itp, tt, nv, nl, ud, rt⟩ := t
  show constructible ⟨r0, false, ig, ii, b, g, none, i, lt0, lv, itp, tt, nv, nl, ud, rt⟩ = true
  rw [constructible.eq_def] at hc ⊢
  simp only [Bool.and_eq_true] at hc ⊢
  exact ⟨⟨⟨hc.1.1.1, rfl⟩, hc.1.2⟩, hc.2⟩

theorem constructible_update_inter (t : TypeInfo) (b : String) (hc : constructible t = true) :
    constructible { t with isIntersection := false, baseType := b, intersectionTypes := none }
      = true := by
  obtain ⟨r0, iu, ig, ii, bt, g, u, i, lt0, lv, itp, tt, nv, nl, ud, rt⟩ := t
  show constructible ⟨r0, iu, ig, false, b, g, u, none, lt0, lv, itp, tt, nv, nl, ud, rt⟩ = true
  rw [constructible.eq_def] at hc ⊢
  simp only [Bool.and_eq_true] at hc ⊢
  exact ⟨⟨⟨hc.1.1.1, hc.1.1.2⟩, rfl⟩, hc.2⟩

theorem constructible_tuple_elem (t : TypeInfo) (l : List TypeInfo) (x : TypeInfo)
    (hl : t.tupleTypes = some l) (hx : x ∈ l) (hc : constructible t = true) :
    constructible x = true := by
  obtain ⟨r0, iu, ig, ii, bt, g, u, i, lt0, lv, itp, tt, nv, nl, ud, rt⟩ := t
  replace hl : tt = some l := hl
  subst hl
  rw [constructible.eq_def] at hc
  simp only [Bool.and_eq_true] at hc
  exact constructibleList_mem hc.2.2 hx

theorem constructible_generic_cons (t : TypeInfo) (hc : constructible t = true)
    (h : t.genericTypes.isSome) : ∃ g gs, t.genericTypes = some (g :: gs) := by
  cases hg : t.genericTypes with
  | none =>
    rw [hg] at h
    simp at h
  | some l =>
    cases l with
    | nil =>
      exfalso
      obtain ⟨r0, iu, ig, ii, bt, g, u, i, lt0, lv, itp, tt, nv, nl, ud, rt⟩ := t
      replace hg : g = some [] := hg
      subst hg
      rw [constructible.eq_def] at hc
      simp [nonemptyOpt] at hc
    | cons a as => exact ⟨a, as, rfl⟩

theorem constructible_flat (a b : String) (x y z : Bool) :
    constructible (TypeInfo.flat a b x y z) = true := rfl



theorem generateMock_total_fuel :
    ∀ (n : Nat) (t : TypeInfo), tsize t ≤ n → constructible t = true →
      (generateMockValueForType t).isOk = true := by
  intro n
  induction n with
  | zero =>
    intro t ht _
    have h1 := tsize_eq t
    omega
  | succ n ih =>
    intro t ht hc
    rw [generateMockValueForType]
    by_cases h1 : truthy t.isNever = true
    · rw [if_pos h1]
      rfl
    · rw [if_neg h1]
      by_cases h2 : truthy t.isNull = true
      · rw [if_pos h2]
        rfl
      · rw [if_neg h2]
        by_cases h3 : truthy t.isUndefined = true
        · rw [if_pos h3]
          rfl
        · rw [if_neg h3]
          by_cases h4 : (truthy t.isLiteral && t.literalValue.isSome) = true
          · rw [if_pos h4]
            rcases hlv : t.literalValue with _ | v
            · rfl
            · cases v <;> rfl
          · rw [if_neg h4]
            by_cases h5 : (t.isUnion && 0 < (t.unionTypes.getD []).length) = true
            · rw [dif_pos h5]
              apply ih
              · have hsz := tsize_union_lt t ((t.unionTypes.getD []).headD "")
                  (getD_length_pos_isSome (by simp at h5; exact h5.2))
                omega
              · exact constructible_update_union t _ hc
            · rw [dif_neg h5]
              by_cases h6 : (t.isIntersection && 0 < (t.intersectionTypes.getD []).length) = true
              · rw [dif_pos h6]
                apply ih
                · have hsz := tsize_inter_lt t ((t.intersectionTypes.getD []).headD "")
                    (getD_length_pos_isSome (by simp at h6; exact h6.2))
                  omega
                · exact constructible_update_inter t _ hc
              · rw [dif_neg h6]
                by_cases h7 : (truthy t.isTuple && t.tupleTypes.isSome) = true
                · rw [if_pos h7]
                  split
                  · rename_i l2 heq
                    rw [except_map_isOk]
                    apply list_mapM_isOk
                    rintro ⟨y, hy⟩ _
                    show (generateMockValueForType y).isOk = true
                    apply ih
                    · have := tsize_tuple_lt t l2 y heq hy
                      omega
                    · exact constructible_tuple_elem t l2 y heq hy hc
                  · rfl
                · rw [if_neg h7]
                  by_cases h8 : (t.isGeneric && t.genericTypes.isSome) = true
                  · rw [dif_pos h8]
                    obtain ⟨g0, gs, hgl⟩ := constructible_generic_cons t hc
                      (by simp at h8; exact h8.2)
                    have hfuel : tsize (TypeInfo.flat g0 g0 false false false) ≤ n := by
                      have hge := tsize_generic_ge t (by simp at h8; exact h8.2)
                      have hfl : tsize (TypeInfo.flat g0 g0 false false false) = 1 := rfl
                      omega
                    have hok := ih (TypeInfo.flat g0 g0 false false false) hfuel
                      (constructible_flat g0 g0 false false false)
                    simp only [hgl, Option.getD_some]
                    by_cases hb1 : t.baseType.toLower = "promise"
                    · rw [if_pos hb1, except_map_isOk]
                      exact hok
                    · rw [if_neg hb1]
                      by_cases hb2 : (t.baseType.toLower = "array"
                          || strIncludes (t.baseType.toLower) "array") = true
                      · rw [if_pos hb2, except_map_isOk]
                        exact hok
                      · rw [if_neg hb2]
                        by_cases hb3 : t.baseType.toLower = "map"
                        · rw [if_pos hb3]
                          rfl
                        · rw [if_neg hb3]
                          by_cases hb4 : t.baseType.toLower = "set"
                          · rw [if_pos hb4]
                            rfl
                          · rw [if_neg hb4]
                            exact hok
                  · rw [dif_neg h8]
                    rcases hlk : typeMap.lookup (t.baseType.toLower) with _ | v
                    · simp only [hlk]
                      rcases hfd : typeMap.find? (fun kv => strIncludes (t.baseType.toLower) kv.1)
                          with _ | kv
                      · simp only [hfd]
                        by_cases hrt : t.resolvedType.isSome = true
                        · rw [if_pos hrt]
                          rfl
                        · rw [if_neg hrt]
                          rfl
                      · simp only [hfd]
                        rfl
                    · simp only [hlk]
                      rfl

/-- Claim C4 (safety).  The synthesizer is total on constructible type
shapes: it returns a placeholder-literal string without raising for every
shape satisfying the data-model invariant (and, being a function of the
shape alone, two calls on equal shapes give identical output by
construction). -/
theorem generateMockValueForType_total (t : TypeInfo) (h : constructible t = true) :
    (generateMockValueForType t).isOk = true :=
  generateMock_total_fuel (tsize t) t (le_refl _) h

/-- Witness for C4 at a concrete tuple-of-union-and-promise shape. -/
theorem generateMockValueForType_total_witness :
    constructible mockWitnessShape = true
    ∧ (generateMockValueForType mockWitnessShape).isOk = true :=
  ⟨by decide, generateMockValueForType_total mockWitnessShape (by decide)⟩


end TestGen
